import Mathlib

/-!
Verification of the Turkish morphological engine of the ozcuk repository.

The development shallowly embeds the three core modules:
  * the vowel-harmony module (`vowel-harmony.ts`): vowel classification,
    two-way and four-way harmony, suffix-template resolution;
  * the conjugation engine (`conjugation.ts`): `conjugateForm`,
    `conjugateVerb`, `getConjugation` over 14 tenses, 6 persons and
    positive/negative polarity;
  * the deinflection engine (`deinflect.ts`): the suffix-pattern tables
    and `deinflect`.

Strings are modelled by Lean `String` (a wrapper around `List Char`);
JavaScript regular expressions of the pattern tables are modelled as
ordered lists of fixed-length suffix templates over character classes,
longest alternative first, which matches the leftmost-match semantics of
the end-anchored patterns of the source.
-/

namespace Ozcuk

/-! ### Generic string helpers (JavaScript primitives) -/

/-- Lowercasing of a single character, covering ASCII letters and the
uppercase Turkish letters used by the engine (JavaScript
`String.prototype.toLowerCase` on the Turkish alphabet). -/
def toLowerChar (c : Char) : Char :=
  if 'A' ≤ c ∧ c ≤ 'Z' then Char.ofNat (c.toNat + 32)
  else if c = 'Ç' then 'ç'
  else if c = 'Ğ' then 'ğ'
  else if c = 'İ' then 'i'
  else if c = 'Ö' then 'ö'
  else if c = 'Ş' then 'ş'
  else if c = 'Ü' then 'ü'
  else c

/-- `word.toLowerCase()`. -/
def toLowerStr (s : String) : String :=
  ⟨s.data.map toLowerChar⟩

/-- `s.slice(0, n)` for `0 ≤ n`. -/
def strTake (s : String) (n : Nat) : String :=
  ⟨s.data.take n⟩

/-- `s.slice(0, -n)`: drop the last `n` characters. -/
def strDropRight (s : String) (n : Nat) : String :=
  ⟨s.data.take (s.data.length - n)⟩

/-- Number of characters of a string. -/
def strLen (s : String) : Nat :=
  s.data.length

/-- `s.endsWith(t)`. -/
def strEndsWith (s t : String) : Bool :=
  t.data.isSuffixOf s.data

/-- `s.lastIndexOf(sub)`, as an `Option` instead of `-1`. -/
def strLastIndexOf (s sub : String) : Option Nat :=
  (((List.range (s.data.length + 1)).filter
    (fun i => sub.data.isPrefixOf (s.data.drop i)))).getLast?

/-! ### Vowel harmony module (`vowel-harmony.ts`) -/

def VOWELS_front : List Char := ['e', 'i', 'ö', 'ü']

def VOWELS_back : List Char := ['a', 'ı', 'o', 'u']

def VOWELS_rounded : List Char := ['o', 'ö', 'u', 'ü']

def VOWELS_all : List Char := ['a', 'e', 'ı', 'i', 'o', 'ö', 'u', 'ü']

def CONSONANTS_voiceless : List Char := ['ç', 'f', 'h', 'k', 'p', 's', 'ş', 't']

/-- `getLastVowel(word)`: rightmost vowel of the lowercased word. -/
def getLastVowel (word : String) : Option Char :=
  ((toLowerStr word).data.reverse).find? (fun c => VOWELS_all.contains c)

/-- `getTwoWayHarmony(lastVowel)`: front vowels give e, back vowels a. -/
def getTwoWayHarmony (lastVowel : Char) : Char :=
  if VOWELS_front.contains (toLowerChar lastVowel) then 'e' else 'a'

/-- `getFourWayHarmony(lastVowel)`: selected by frontness and roundedness. -/
def getFourWayHarmony (lastVowel : Char) : Char :=
  let v := toLowerChar lastVowel
  let isFront := VOWELS_front.contains v
  let isRounded := VOWELS_rounded.contains v
  if isFront ∧ ¬ isRounded then 'i'
  else if isFront ∧ isRounded then 'ü'
  else if ¬ isFront ∧ ¬ isRounded then 'ı'
  else 'u'

/-- `isEType(word)`: last vowel is front; vowel-less words default to e-type. -/
def isEType (word : String) : Bool :=
  match getLastVowel word with
  | none => true
  | some v => VOWELS_front.contains v

/-- `endsWithVoicelessConsonant(word)`. -/
def endsWithVoicelessConsonant (word : String) : Bool :=
  match word.data.getLast? with
  | none => false
  | some c => CONSONANTS_voiceless.contains (toLowerChar c)

/-- `getConsonantD(word)`: d becomes t after a voiceless consonant. -/
def getConsonantD (word : String) : Char :=
  if endsWithVoicelessConsonant word then 't' else 'd'

/-- The switch body of the resolution loop of `applySuffix`. -/
def resolveChar (stem : String) (lastVowel : Char) (c : Char) : Char :=
  if c = 'A' then getTwoWayHarmony lastVowel
  else if c = 'I' then getFourWayHarmony lastVowel
  else if c = 'D' then getConsonantD stem
  else c

/-- The per-character resolution loop of `applySuffix`, against a known
last vowel of the stem. -/
def resolveTemplate (stem : String) (lastVowel : Char) (template : String) : String :=
  ⟨template.data.map (resolveChar stem lastVowel)⟩

/-- `applySuffix(stem, suffixTemplate)` of the vowel-harmony module: a
vowel-less stem gets the template appended verbatim. -/
def applySuffix (stem suffixTemplate : String) : String :=
  match getLastVowel stem with
  | none => stem ++ suffixTemplate
  | some lastVowel => stem ++ resolveTemplate stem lastVowel suffixTemplate

/-- `getVerbRoot(infinitive)`: strip a final `-mek`/`-mak` (checked on the
lowercased string, stripped from the original). -/
def getVerbRoot (infinitive : String) : String :=
  let lower := toLowerStr infinitive
  if strEndsWith lower "mek" || strEndsWith lower "mak" then
    strDropRight infinitive 3
  else
    infinitive

/-- `rootEndsInVowel(root)`. -/
def rootEndsInVowel (root : String) : Bool :=
  match root.data.getLast? with
  | none => false
  | some c => VOWELS_all.contains (toLowerChar c)

/-! ### Conjugation engine (`conjugation.ts`) -/

/-- The six grammatical persons. -/
inductive Person where
  | ben | sen | o | biz | siz | onlar
deriving DecidableEq

/-- The 14 tenses: 9 simple ones and 5 compound (hikaye and rivayet) ones. -/
inductive Tense where
  | present | past | future | aorist | reported
  | conditional | necessitative | optative | imperative
  | pastContinuous | futurePast | pastReported | aoristPast
  | pastContinuousReported
deriving DecidableEq

/-- `IRREGULAR_AORIST`: roots with a special aorist base. -/
def IRREGULAR_AORIST : List (String × String) :=
  [("git", "gider"), ("et", "eder"), ("tat", "tadar")]

/-- `VOWEL_CONTRACTION_VERBS` of the conjugation engine (e to i before -yor). -/
def VOWEL_CONTRACTION_VERBS_conj : List (String × String) :=
  [("ye", "yi"), ("de", "di")]

/-- `CONSONANT_SOFTENING_ROOTS` (t to d before a vowel). -/
def CONSONANT_SOFTENING_ROOTS : List String :=
  ["git", "et", "tat", "güt", "dit"]

/-- `PERSON_SUFFIXES.type1`: aorist, future, reported past. -/
def personSuffixType1 : Person → String
  | .ben => "Im"
  | .sen => "sIn"
  | .o => ""
  | .biz => "Iz"
  | .siz => "sInIz"
  | .onlar => "lAr"

/-- `PERSON_SUFFIXES.type2`: simple past. -/
def personSuffixType2 : Person → String
  | .ben => "m"
  | .sen => "n"
  | .o => ""
  | .biz => "k"
  | .siz => "nIz"
  | .onlar => "lAr"

/-- `PERSON_SUFFIXES.type3`: present continuous (literal, not harmonized). -/
def personSuffixType3 : Person → String
  | .ben => "um"
  | .sen => "sun"
  | .o => ""
  | .biz => "uz"
  | .siz => "sunuz"
  | .onlar => "lar"

/-- `TENSE_INFO`: bilingual display labels per tense. -/
def TENSE_INFO : Tense → String × String
  | .present => ("Present Continuous", "Şimdiki Zaman")
  | .past => ("Simple Past", "Di\x27li Geçmiş")
  | .future => ("Future", "Gelecek Zaman")
  | .aorist => ("Simple Present (Aorist)", "Geniş Zaman")
  | .reported => ("Reported Past", "Miş\x27li Geçmiş")
  | .conditional => ("Conditional", "Şart Kipi")
  | .necessitative => ("Necessitative", "Gereklilik Kipi")
  | .optative => ("Optative", "İstek Kipi")
  | .imperative => ("Imperative", "Emir Kipi")
  | .pastContinuous => ("Past Continuous", "Şimdiki Zamanın Hikayesi")
  | .futurePast => ("Future in Past", "Gelecek Zamanın Hikayesi")
  | .pastReported => ("Past Reported", "Miş\x27li Geçmişin Hikayesi")
  | .aoristPast => ("Aorist Past", "Geniş Zamanın Hikayesi")
  | .pastContinuousReported => ("Past Continuous Reported", "Şimdiki Zamanın Rivayeti")

/-- The switch body of the `harmonize` loop (no `D` case). -/
def harmonizeChar (lastVowel : Char) (c : Char) : Char :=
  if c = 'A' then getTwoWayHarmony lastVowel
  else if c = 'I' then getFourWayHarmony lastVowel
  else c

/-- `harmonize(stem, template)` of the conjugation engine: placeholders
`A` and `I` resolve against the last vowel of the stem, with a vowel-less
stem defaulting to e; every other character passes through. -/
def harmonize (stem template : String) : String :=
  let lastVowel := (getLastVowel stem).getD 'e'
  ⟨template.data.map (harmonizeChar lastVowel)⟩

/-- `hasVowelContraction(root)`. -/
def hasVowelContraction (root : String) : Bool :=
  (VOWEL_CONTRACTION_VERBS_conj.lookup (toLowerStr root)).isSome

/-- `getContractedRoot(root)`. -/
def getContractedRoot (root : String) : String :=
  (VOWEL_CONTRACTION_VERBS_conj.lookup (toLowerStr root)).getD root

/-- `requiresConsonantSoftening(root)`. -/
def requiresConsonantSoftening (root : String) : Bool :=
  CONSONANT_SOFTENING_ROOTS.contains (toLowerStr root)

/-- `softenConsonant(root)`: final t becomes d. -/
def softenConsonant (root : String) : String :=
  if strEndsWith root "t" then strDropRight root 1 ++ "d" else root

/-- `getAoristSuffix(root)`: irregular roots take `Ar`; vowel-final roots
take `r`; monosyllabic roots outside the exception list take `Ar`;
everything else takes `Ir`. -/
def getAoristSuffix (root : String) : String :=
  if requiresConsonantSoftening root then "Ar"
  else if rootEndsInVowel root then "r"
  else
    let vowelCount := (root.data.filter (fun c => VOWELS_all.contains (toLowerChar c))).length
    let monosyllabicIrVerbs : List String :=
      ["al", "bil", "bul", "dur", "gel", "gör", "kal", "ol", "öl", "san", "var", "ver", "vur"]
    if vowelCount = 1 ∧ ¬ monosyllabicIrVerbs.contains (toLowerStr root) then "Ar"
    else "Ir"

/-- `getAoristStem(root)`. -/
def getAoristStem (root : String) : String :=
  if requiresConsonantSoftening root then softenConsonant root else root

/-- The `present` branch of `conjugateForm` (called recursively by the
compound tenses). -/
def presentForm (root : String) (person : Person) (negative : Bool) : String :=
  if hasVowelContraction root ∧ ¬ negative then
    let stem := getContractedRoot root
    let base := stem ++ "yor"
    base ++ personSuffixType3 person
  else
    let stem :=
      if negative then
        let negSuffix := if rootEndsInVowel root then "m" else "mI"
        root ++ harmonize root negSuffix
      else if rootEndsInVowel root then strDropRight root 1
      else root
    let base := stem ++ (if rootEndsInVowel stem then "" else harmonize stem "I") ++ "yor"
    base ++ personSuffixType3 person

/-- The person record of the `imperative` branch. -/
def imperativeEndings : Person → String
  | .ben => ""
  | .sen => ""
  | .o => "sIn"
  | .biz => "lIm"
  | .siz => "(y)In"
  | .onlar => "sInlAr"

/-- The person record of the `optative` branch. -/
def optativePersons : Person → String
  | .ben => "yIm"
  | .sen => "sIn"
  | .o => ""
  | .biz => "lIm"
  | .siz => "sInIz"
  | .onlar => "lAr"

/-- `conjugateForm(root, tense, person, negative)`. -/
def conjugateForm (root : String) (tense : Tense) (person : Person) (negative : Bool) : String :=
  match tense with
  | .present => presentForm root person negative
  | .past =>
      let stem := if negative then root ++ harmonize root "mA" else root
      let d := if endsWithVoicelessConsonant stem then "t" else "d"
      let base := stem ++ d ++ harmonize stem "I"
      base ++ harmonize base (personSuffixType2 person)
  | .future =>
      let stem := if negative then root ++ harmonize root "mA" else root
      let y := if rootEndsInVowel stem then "y" else ""
      let base := stem ++ y ++ harmonize stem "AcAk"
      base ++ harmonize base (personSuffixType1 person)
  | .aorist =>
      if negative then
        let negBase := root ++ harmonize root "mA"
        if person = .o then negBase ++ "z"
        else negBase ++ harmonize negBase (personSuffixType1 person)
      else
        let aoristStem := getAoristStem root
        let aoristSuffix := getAoristSuffix root
        let base := aoristStem ++ harmonize aoristStem aoristSuffix
        base ++ harmonize base (personSuffixType1 person)
  | .reported =>
      let stem := if negative then root ++ harmonize root "mA" else root
      let base := stem ++ harmonize stem "mIş"
      base ++ harmonize base (personSuffixType1 person)
  | .conditional =>
      let stem := if negative then root ++ harmonize root "mA" else root
      let base := stem ++ harmonize stem "sA"
      base ++ harmonize base (personSuffixType2 person)
  | .necessitative =>
      let stem := if negative then root ++ harmonize root "mA" else root
      let base := stem ++ harmonize stem "mAlI"
      base ++ harmonize base (personSuffixType1 person)
  | .optative =>
      let stem := if negative then root ++ harmonize root "mA" else root
      let y := if rootEndsInVowel stem then "y" else ""
      let base := stem ++ y ++ harmonize stem "A"
      base ++ harmonize base (optativePersons person)
  | .imperative =>
      let stem := if negative then root ++ harmonize root "mA" else root
      if person = .ben then ""
      else if person = .siz then
        let ending := if rootEndsInVowel stem then "yIn" else "In"
        stem ++ harmonize stem ending
      else stem ++ harmonize stem (imperativeEndings person)
  | .pastContinuous =>
      let presentBase := presentForm root person negative
      match strLastIndexOf presentBase "yor" with
      | none => presentBase
      | some yorIndex =>
          let baseWithYor := strTake presentBase (yorIndex + 3)
          let pastSuffix := "d" ++ harmonize baseWithYor "I"
          baseWithYor ++ pastSuffix
            ++ harmonize (baseWithYor ++ pastSuffix) (personSuffixType2 person)
  | .futurePast =>
      let stem := if negative then root ++ harmonize root "mA" else root
      let y := if rootEndsInVowel stem then "y" else ""
      let futureBase := stem ++ y ++ harmonize stem "AcAk"
      let pastSuffix := "t" ++ harmonize futureBase "I"
      futureBase ++ pastSuffix
        ++ harmonize (futureBase ++ pastSuffix) (personSuffixType2 person)
  | .pastReported =>
      let stem := if negative then root ++ harmonize root "mA" else root
      let reportedBase := stem ++ harmonize stem "mIş"
      let pastSuffix := "t" ++ harmonize reportedBase "I"
      reportedBase ++ pastSuffix
        ++ harmonize (reportedBase ++ pastSuffix) (personSuffixType2 person)
  | .aoristPast =>
      if negative then
        let negBase := root ++ harmonize root "mA" ++ "z"
        let pastSuffix := "d" ++ harmonize negBase "I"
        negBase ++ pastSuffix
          ++ harmonize (negBase ++ pastSuffix) (personSuffixType2 person)
      else
        let aoristStem := getAoristStem root
        let aoristSuffix := getAoristSuffix root
        let aoristBase := aoristStem ++ harmonize aoristStem aoristSuffix
        let pastSuffix := "d" ++ harmonize aoristBase "I"
        aoristBase ++ pastSuffix
          ++ harmonize (aoristBase ++ pastSuffix) (personSuffixType2 person)
  | .pastContinuousReported =>
      let presentBase := presentForm root person negative
      match strLastIndexOf presentBase "yor" with
      | none => presentBase
      | some yorIndex =>
          let baseWithYor := strTake presentBase (yorIndex + 3)
          let reportedSuffix := harmonize baseWithYor "mIş"
          baseWithYor ++ reportedSuffix
            ++ harmonize (baseWithYor ++ reportedSuffix) (personSuffixType1 person)

/-- `makeQuestion(conjugatedForm)`: append the harmonized question particle. -/
def makeQuestion (conjugatedForm : String) : String :=
  let lastVowel := (getLastVowel conjugatedForm).getD 'i'
  let mi := "m".push (getFourWayHarmony lastVowel)
  conjugatedForm ++ " " ++ mi ++ "?"

/-- The four polarity cells of one person in one tense. -/
structure FormSet where
  positive : String
  negative : String
  question : String
  negativeQuestion : String
deriving DecidableEq

/-- `getPersonForms(root, tense)`. -/
def getPersonForms (root : String) (tense : Tense) : Person → FormSet :=
  fun person =>
    let positive := conjugateForm root tense person false
    let negative := conjugateForm root tense person true
    { positive := positive
      negative := negative
      question := makeQuestion positive
      negativeQuestion := makeQuestion negative }

/-- One tense entry of a conjugation table. -/
structure TenseConjugation where
  tense : Tense
  label : String
  labelTr : String
  forms : Person → FormSet

/-- `ConjugationTable`. -/
structure ConjugationTable where
  infinitive : String
  root : String
  vowelType : String
  tenses : List TenseConjugation

def SIMPLE_TENSES : List Tense :=
  [.present, .past, .future, .aorist, .reported,
   .conditional, .necessitative, .optative, .imperative]

def COMPOUND_TENSES : List Tense :=
  [.pastContinuous, .futurePast, .pastReported, .aoristPast, .pastContinuousReported]

/-- `conjugateVerb(infinitive, includeCompound)`. -/
def conjugateVerb (infinitive : String) (includeCompound : Bool) : ConjugationTable :=
  let root := getVerbRoot infinitive
  let tenses := if includeCompound then SIMPLE_TENSES ++ COMPOUND_TENSES else SIMPLE_TENSES
  { infinitive := infinitive
    root := root
    vowelType := if isEType root then "e-type" else "a-type"
    tenses := tenses.map (fun tense =>
      { tense := tense
        label := (TENSE_INFO tense).1
        labelTr := (TENSE_INFO tense).2
        forms := getPersonForms root tense }) }

/-- `getConjugation(infinitive, tense, person, negative)`. -/
def getConjugation (infinitive : String) (tense : Tense) (person : Person)
    (negative : Bool) : String :=
  conjugateForm (getVerbRoot infinitive) tense person negative

/-! ### Deinflection engine (`deinflect.ts`)

Each end-anchored regular expression of the pattern tables is modelled as
an ordered list of fixed-length suffix templates (a template is a list of
character classes, a singleton class being a literal character).  Longer
alternatives come first: an end-anchored alternation of fixed-length
branches matches leftmost, hence longest, in JavaScript.  Alternatives of
equal length are merged into one character class when they differ in a
single position. -/

/-- A literal template character. -/
def cc (c : Char) : List Char := [c]

/-- The class `[ıiuü]` (four-way harmony vowels). -/
def V4 : List Char := ['ı', 'i', 'u', 'ü']

/-- The class `[ae]` (two-way harmony vowels). -/
def AE : List Char := ['a', 'e']

/-- The class `[dt]` (merging the `d...|t...` alternations). -/
def DT : List Char := ['d', 't']

/-- The class `[kğ]`. -/
def KG : List Char := ['k', 'ğ']

/-- The class `[ıiuüae]` (merging the `[ıiuü]r|[ae]r` alternation). -/
def V6 : List Char := ['ı', 'i', 'u', 'ü', 'a', 'e']

/-- The class `[ny]` (merging `n...|y...` alternations of equal length). -/
def NY : List Char := ['n', 'y']

/-- Does `w` end with the fixed-length template `t`? -/
def endsWithTemplate (w : List Char) (t : List (List Char)) : Bool :=
  decide (t.length ≤ w.length)
    && ((w.drop (w.length - t.length)).zip t).all (fun p => p.2.contains p.1)

/-- First matching alternative, returning the matched suffix length. -/
def matchAlts (w : List Char) : List (List (List Char)) → Option Nat
  | [] => none
  | t :: rest => if endsWithTemplate w t then some t.length else matchAlts w rest

/-- One entry of `VERB_TENSE_PATTERNS`. -/
structure VerbPattern where
  alts : List (List (List Char))
  tense : String
  person : Option String
  negative : Bool

/-- Positive verb pattern. -/
def vp (alts : List (List (List Char))) (tense person : String) : VerbPattern :=
  ⟨alts, tense, some person, false⟩

/-- Negative verb pattern. -/
def vpn (alts : List (List (List Char))) (tense person : String) : VerbPattern :=
  ⟨alts, tense, some person, true⟩

/-- `VERB_TENSE_PATTERNS`, in table order. -/
def VERB_TENSE_PATTERNS : List VerbPattern := [
  -- Present continuous: ([ıiuü])yorum etc.
  vp [[V4, cc 'y', cc 'o', cc 'r', cc 'u', cc 'm']] "present" "1sg",
  vp [[V4, cc 'y', cc 'o', cc 'r', cc 's', cc 'u', cc 'n']] "present" "2sg",
  vp [[V4, cc 'y', cc 'o', cc 'r']] "present" "3sg",
  vp [[V4, cc 'y', cc 'o', cc 'r', cc 'u', cc 'z']] "present" "1pl",
  vp [[V4, cc 'y', cc 'o', cc 'r', cc 's', cc 'u', cc 'n', cc 'u', cc 'z']] "present" "2pl",
  vp [[V4, cc 'y', cc 'o', cc 'r', cc 'l', cc 'a', cc 'r']] "present" "3pl",
  -- Present continuous negative: m([ıiuü])yor...
  vpn [[cc 'm', V4, cc 'y', cc 'o', cc 'r', cc 'u', cc 'm']] "present" "1sg",
  vpn [[cc 'm', V4, cc 'y', cc 'o', cc 'r', cc 's', cc 'u', cc 'n']] "present" "2sg",
  vpn [[cc 'm', V4, cc 'y', cc 'o', cc 'r']] "present" "3sg",
  vpn [[cc 'm', V4, cc 'y', cc 'o', cc 'r', cc 'u', cc 'z']] "present" "1pl",
  vpn [[cc 'm', V4, cc 'y', cc 'o', cc 'r', cc 's', cc 'u', cc 'n', cc 'u', cc 'z']] "present" "2pl",
  vpn [[cc 'm', V4, cc 'y', cc 'o', cc 'r', cc 'l', cc 'a', cc 'r']] "present" "3pl",
  -- Simple past: (d[ıiuü]|t[ıiuü]) + person
  vp [[DT, V4, cc 'm']] "past" "1sg",
  vp [[DT, V4, cc 'n']] "past" "2sg",
  vp [[DT, V4]] "past" "3sg",
  vp [[DT, V4, cc 'k']] "past" "1pl",
  vp [[DT, V4, cc 'n', V4, cc 'z']] "past" "2pl",
  vp [[DT, V4, cc 'l', AE, cc 'r']] "past" "3pl",
  -- Future: (y?[ae]c[ae][kğ]) + person
  vp [[cc 'y', AE, cc 'c', AE, KG, V4, cc 'm'], [AE, cc 'c', AE, KG, V4, cc 'm']]
    "future" "1sg",
  vp [[cc 'y', AE, cc 'c', AE, KG, cc 's', V4, cc 'n'],
      [AE, cc 'c', AE, KG, cc 's', V4, cc 'n']] "future" "2sg",
  vp [[cc 'y', AE, cc 'c', AE, KG], [AE, cc 'c', AE, KG]] "future" "3sg",
  vp [[cc 'y', AE, cc 'c', AE, KG, V4, cc 'z'], [AE, cc 'c', AE, KG, V4, cc 'z']]
    "future" "1pl",
  vp [[cc 'y', AE, cc 'c', AE, KG, cc 's', V4, cc 'n', V4, cc 'z'],
      [AE, cc 'c', AE, KG, cc 's', V4, cc 'n', V4, cc 'z']] "future" "2pl",
  vp [[cc 'y', AE, cc 'c', AE, KG, cc 'l', AE, cc 'r'],
      [AE, cc 'c', AE, KG, cc 'l', AE, cc 'r']] "future" "3pl",
  -- Reported past: m[ıiuü]ş + person
  vp [[cc 'm', V4, cc 'ş', V4, cc 'm']] "reported" "1sg",
  vp [[cc 'm', V4, cc 'ş', cc 's', V4, cc 'n']] "reported" "2sg",
  vp [[cc 'm', V4, cc 'ş']] "reported" "3sg",
  vp [[cc 'm', V4, cc 'ş', V4, cc 'z']] "reported" "1pl",
  vp [[cc 'm', V4, cc 'ş', cc 's', V4, cc 'n', V4, cc 'z']] "reported" "2pl",
  vp [[cc 'm', V4, cc 'ş', cc 'l', AE, cc 'r']] "reported" "3pl",
  -- Aorist: ([ıiuü]r|[ae]r) + person
  vp [[V6, cc 'r', V4, cc 'm']] "aorist" "1sg",
  vp [[V6, cc 'r', cc 's', V4, cc 'n']] "aorist" "2sg",
  vp [[V6, cc 'r']] "aorist" "3sg",
  vp [[V6, cc 'r', V4, cc 'z']] "aorist" "1pl",
  vp [[V6, cc 'r', cc 's', V4, cc 'n', V4, cc 'z']] "aorist" "2pl",
  vp [[V6, cc 'r', cc 'l', AE, cc 'r']] "aorist" "3pl",
  -- Aorist negative: -mez/-maz shapes
  vpn [[cc 'm', AE, cc 'm']] "aorist" "1sg",
  vpn [[cc 'm', AE, cc 'z', cc 's', V4, cc 'n']] "aorist" "2sg",
  vpn [[cc 'm', AE, cc 'z']] "aorist" "3sg",
  vpn [[cc 'm', AE, cc 'y', V4, cc 'z']] "aorist" "1pl",
  vpn [[cc 'm', AE, cc 'z', cc 's', V4, cc 'n', V4, cc 'z']] "aorist" "2pl",
  vpn [[cc 'm', AE, cc 'z', cc 'l', AE, cc 'r']] "aorist" "3pl",
  -- Conditional: s[ae] + person
  vp [[cc 's', AE, cc 'm']] "conditional" "1sg",
  vp [[cc 's', AE, cc 'n']] "conditional" "2sg",
  vp [[cc 's', AE]] "conditional" "3sg",
  vp [[cc 's', AE, cc 'k']] "conditional" "1pl",
  vp [[cc 's', AE, cc 'n', V4, cc 'z']] "conditional" "2pl",
  vp [[cc 's', AE, cc 'l', AE, cc 'r']] "conditional" "3pl",
  -- Necessitative: m[ae]l[ıiuü] + person
  vp [[cc 'm', AE, cc 'l', V4, cc 'y', V4, cc 'm']] "necessitative" "1sg",
  vp [[cc 'm', AE, cc 'l', V4, cc 's', V4, cc 'n']] "necessitative" "2sg",
  vp [[cc 'm', AE, cc 'l', V4]] "necessitative" "3sg",
  vp [[cc 'm', AE, cc 'l', V4, cc 'y', V4, cc 'z']] "necessitative" "1pl",
  vp [[cc 'm', AE, cc 'l', V4, cc 's', V4, cc 'n', V4, cc 'z']] "necessitative" "2pl",
  vp [[cc 'm', AE, cc 'l', V4, cc 'l', AE, cc 'r']] "necessitative" "3pl",
  -- Optative: (y?[ae]) + person
  vp [[cc 'y', AE, cc 'y', V4, cc 'm'], [AE, cc 'y', V4, cc 'm']] "optative" "1sg",
  vp [[cc 'y', AE, cc 's', V4, cc 'n'], [AE, cc 's', V4, cc 'n']] "optative" "2sg",
  vp [[cc 'y', AE], [AE]] "optative" "3sg",
  vp [[cc 'y', AE, cc 'l', V4, cc 'm'], [AE, cc 'l', V4, cc 'm']] "optative" "1pl",
  vp [[cc 'y', AE, cc 's', V4, cc 'n', V4, cc 'z'], [AE, cc 's', V4, cc 'n', V4, cc 'z']]
    "optative" "2pl",
  vp [[cc 'y', AE, cc 'l', AE, cc 'r'], [AE, cc 'l', AE, cc 'r']] "optative" "3pl",
  -- Imperative
  vp [[cc 's', V4, cc 'n']] "imperative" "3sg",
  vp [[cc 'y', V4, cc 'n'], [V4, cc 'n']] "imperative" "2pl",
  vp [[cc 'y', V4, cc 'n', V4, cc 'z'], [V4, cc 'n', V4, cc 'z']] "imperative" "2pl",
  vp [[cc 's', V4, cc 'n', cc 'l', AE, cc 'r']] "imperative" "3pl"
]

/-- One entry of the noun-case or possessive tables. -/
structure NounPattern where
  alts : List (List (List Char))
  suffix : String

/-- `NOUN_CASE_PATTERNS`, in table order (ablative before locative). -/
def NOUN_CASE_PATTERNS : List NounPattern := [
  ⟨[[DT, AE, cc 'n']], "ablative"⟩,
  ⟨[[DT, AE]], "locative"⟩,
  ⟨[[cc 'n', V4, cc 'n'], [V4, cc 'n']], "genitive"⟩,
  ⟨[[NY, V4], [V4]], "accusative"⟩,
  ⟨[[NY, AE], [AE]], "dative"⟩,
  ⟨[[cc 'l', AE, cc 'r']], "plural"⟩
]

/-- `POSSESSIVE_PATTERNS`, in table order. -/
def POSSESSIVE_PATTERNS : List NounPattern := [
  ⟨[[V4, cc 'm'], [cc 'm']], "poss1sg"⟩,
  ⟨[[V4, cc 'n'], [cc 'n']], "poss2sg"⟩,
  ⟨[[cc 's', V4], [V4]], "poss3sg"⟩,
  ⟨[[V4, cc 'm', V4, cc 'z'], [cc 'm', V4, cc 'z']], "poss1pl"⟩,
  ⟨[[V4, cc 'n', V4, cc 'z'], [cc 'n', V4, cc 'z']], "poss2pl"⟩,
  ⟨[[cc 'l', AE, cc 'r', V4]], "poss3pl"⟩
]

/-- `SUFFIX_LABELS`: Turkish display labels of the suffix identifiers. -/
def SUFFIX_LABELS : List (String × String) := [
  ("present", "şimdiki zaman"),
  ("past", "di\x27li geçmiş"),
  ("future", "gelecek zaman"),
  ("aorist", "geniş zaman"),
  ("reported", "miş\x27li geçmiş"),
  ("conditional", "şart kipi"),
  ("necessitative", "gereklilik"),
  ("optative", "istek kipi"),
  ("imperative", "emir kipi"),
  ("negative", "olumsuz"),
  ("1sg", "1. tekil (ben)"),
  ("2sg", "2. tekil (sen)"),
  ("3sg", "3. tekil (o)"),
  ("1pl", "1. çoğul (biz)"),
  ("2pl", "2. çoğul (siz)"),
  ("3pl", "3. çoğul (onlar)"),
  ("accusative", "belirtme hali (-i)"),
  ("dative", "yönelme hali (-e)"),
  ("locative", "bulunma hali (-de)"),
  ("ablative", "ayrılma hali (-den)"),
  ("genitive", "tamlayan (-in)"),
  ("plural", "çoğul (-ler)"),
  ("poss1sg", "iyelik 1. tekil (-im)"),
  ("poss2sg", "iyelik 2. tekil (-in)"),
  ("poss3sg", "iyelik 3. tekil (-i)"),
  ("poss1pl", "iyelik 1. çoğul (-imiz)"),
  ("poss2pl", "iyelik 2. çoğul (-iniz)"),
  ("poss3pl", "iyelik 3. çoğul (-leri)")
]

/-- `getSuffixLabel(suffix)`. -/
def getSuffixLabel (suffix : String) : String :=
  (SUFFIX_LABELS.lookup suffix).getD suffix

/-- `CONSONANT_SOFTENING_VERBS` of the deinflection engine
(softened root form to dictionary root form). -/
def CONSONANT_SOFTENING_VERBS : List (String × String) :=
  [("gid", "git"), ("ed", "et"), ("tad", "tat"), ("güd", "güt"), ("did", "dit")]

/-- `VOWEL_CONTRACTION_VERBS` of the deinflection engine. -/
def VOWEL_CONTRACTION_VERBS_deinf : List (String × String) :=
  [("yi", "ye"), ("di", "de")]

/-- `IRREGULAR_AORIST_TO_ROOT`. -/
def IRREGULAR_AORIST_TO_ROOT : List (String × String) :=
  [("gider", "git"), ("eder", "et"), ("tadar", "tat"), ("yer", "ye"), ("der", "de")]

/-- Shared loop shape of the softening and irregular-aorist reversals:
first entry whose key the root equals or ends with replaces that suffix. -/
def findStripRule : List (String × String) → String → Option String
  | [], _ => none
  | (k, v) :: rest, root =>
      if root = k || strEndsWith root k then some (strDropRight root (strLen k) ++ v)
      else findStripRule rest root

/-- `applyIrregularVerbRules(root)`. -/
def applyIrregularVerbRules (root : String) : String :=
  match findStripRule CONSONANT_SOFTENING_VERBS root with
  | some r => r
  | none =>
      match VOWEL_CONTRACTION_VERBS_deinf.lookup root with
      | some original => original
      | none =>
          match findStripRule IRREGULAR_AORIST_TO_ROOT root with
          | some r => r
          | none => root

/-- `getInfinitiveEnding(root)`: chosen by the last vowel of the root. -/
def getInfinitiveEnding (root : String) : String :=
  match getLastVowel root with
  | some lastVowel => if VOWELS_back.contains lastVowel then "mak" else "mek"
  | none => "mek"

/-- `DeinflectionResult`. -/
structure DeinflectionResult where
  dictionaryForm : String
  originalWord : String
  suffixes : List String
  suffixLabels : List String
  possiblePos : List String
deriving DecidableEq

/-- The verb-pattern pass of `deinflect`. -/
def verbResults (word lower : String) : List DeinflectionResult :=
  VERB_TENSE_PATTERNS.filterMap (fun rule =>
    match matchAlts lower.data rule.alts with
    | none => none
    | some n =>
        let root := applyIrregularVerbRules (strDropRight lower n)
        let suffixes :=
          (if rule.negative then ["negative"] else [])
            ++ [rule.tense]
            ++ (match rule.person with | some p => [p] | none => [])
        some
          { dictionaryForm := root ++ getInfinitiveEnding root
            originalWord := word
            suffixes := suffixes
            suffixLabels := suffixes.map getSuffixLabel
            possiblePos := ["verb"] })

/-- A noun-case or possessive pass of `deinflect`: stripped roots shorter
than 2 characters are rejected. -/
def nounResults (patterns : List NounPattern) (word lower : String)
    (possiblePos : List String) : List DeinflectionResult :=
  patterns.filterMap (fun rule =>
    match matchAlts lower.data rule.alts with
    | none => none
    | some n =>
        let root := strDropRight lower n
        if 2 ≤ strLen root then
          some
            { dictionaryForm := root
              originalWord := word
              suffixes := [rule.suffix]
              suffixLabels := [getSuffixLabel rule.suffix]
              possiblePos := possiblePos }
        else none)

/-- All pattern-produced analyses, before the identity fallback and the
deduplication step. -/
def rawResults (word : String) : List DeinflectionResult :=
  let lower := toLowerStr word
  verbResults word lower
    ++ nounResults NOUN_CASE_PATTERNS word lower ["noun", "adjective", "proper-noun"]
    ++ nounResults POSSESSIVE_PATTERNS word lower ["noun", "adjective"]

/-- The identity analysis: the lowercased surface form itself. -/
def identityResult (word : String) : DeinflectionResult :=
  { dictionaryForm := toLowerStr word
    originalWord := word
    suffixes := []
    suffixLabels := []
    possiblePos := ["noun", "verb", "adjective", "adverb"] }

/-- The final filter of `deinflect`: keep the first result per dictionary
form (the `seen` set accumulates forms already kept). -/
def dedupResults (seen : List String) : List DeinflectionResult → List DeinflectionResult
  | [] => []
  | r :: rs =>
      if seen.contains r.dictionaryForm then dedupResults seen rs
      else r :: dedupResults (r.dictionaryForm :: seen) rs

/-- `deinflect(word)`. -/
def deinflect (word : String) : List DeinflectionResult :=
  let results := rawResults word
  dedupResults [] (if results.isEmpty then [identityResult word] else results)

/-! ### Definitions supporting the claims -/

/-- Round trip: does deinflecting a conjugated form recover the lemma
among the candidate dictionary forms? -/
def roundTrips (inf : String) (t : Tense) (p : Person) (neg : Bool) : Bool :=
  ((deinflect (getConjugation inf t p neg)).map (·.dictionaryForm)).contains inf

/-- A curated test set of regular consonant-final verbs. -/
def curatedVerbs : List String := ["gelmek", "yapmak", "görmek"]

/-- The simple tenses whose positive forms round-trip. -/
def positiveRoundTripTenses : List Tense :=
  [.present, .past, .future, .aorist, .reported, .conditional, .optative]

/-- All six persons. -/
def allPersons : List Person := [.ben, .sen, .o, .biz, .siz, .onlar]

/-- The infinitive test of `getVerbRoot`, exposed as a predicate. -/
def endsWithInfinitive (s : String) : Bool :=
  strEndsWith (toLowerStr s) "mek" || strEndsWith (toLowerStr s) "mak"

/-- Remove a trailing person suffix produced from the given template
(harmonization is length-preserving, so the resolved suffix is exactly as
long as its template). -/
def stripPersonSuffix (s template : String) : String :=
  strDropRight s (strLen template)

/-- Does some verb, noun-case or possessive pattern match the lowercased
word? -/
def anyPatternMatches (word : String) : Bool :=
  let lower := toLowerStr word
  VERB_TENSE_PATTERNS.any (fun r => (matchAlts lower.data r.alts).isSome)
    || NOUN_CASE_PATTERNS.any (fun r => (matchAlts lower.data r.alts).isSome)
    || POSSESSIVE_PATTERNS.any (fun r => (matchAlts lower.data r.alts).isSome)

/-- Modelled from the spec (section 4.2): compound conjugation as the
claim states it — take the already-conjugated simple-tense surface form,
locate its tense-marking substring (equivalently, strip the first-layer
person suffix), and append a second harmony-resolved past or reported
layer plus type-2 person suffixes for every compound tense. -/
def compoundClaimed (tense : Tense) (root : String) (person : Person)
    (negative : Bool) : String :=
  match tense with
  | .pastContinuous =>
      let presentBase := conjugateForm root .present person negative
      match strLastIndexOf presentBase "yor" with
      | none => presentBase
      | some yorIndex =>
          let baseWithYor := strTake presentBase (yorIndex + 3)
          let pastSuffix := "d" ++ harmonize baseWithYor "I"
          baseWithYor ++ pastSuffix
            ++ harmonize (baseWithYor ++ pastSuffix) (personSuffixType2 person)
  | .futurePast =>
      let simple := conjugateForm root .future person negative
      let base := stripPersonSuffix simple (personSuffixType1 person)
      let pastSuffix := "t" ++ harmonize base "I"
      base ++ pastSuffix ++ harmonize (base ++ pastSuffix) (personSuffixType2 person)
  | .pastReported =>
      let simple := conjugateForm root .reported person negative
      let base := stripPersonSuffix simple (personSuffixType1 person)
      let pastSuffix := "t" ++ harmonize base "I"
      base ++ pastSuffix ++ harmonize (base ++ pastSuffix) (personSuffixType2 person)
  | .aoristPast =>
      let simple := conjugateForm root .aorist person negative
      let base := stripPersonSuffix simple (personSuffixType1 person)
      let pastSuffix := "d" ++ harmonize base "I"
      base ++ pastSuffix ++ harmonize (base ++ pastSuffix) (personSuffixType2 person)
  | .pastContinuousReported =>
      let presentBase := conjugateForm root .present person negative
      match strLastIndexOf presentBase "yor" with
      | none => presentBase
      | some yorIndex =>
          let baseWithYor := strTake presentBase (yorIndex + 3)
          let reportedSuffix := harmonize baseWithYor "mIş"
          baseWithYor ++ reportedSuffix
            ++ harmonize (baseWithYor ++ reportedSuffix) (personSuffixType2 person)
  | t => conjugateForm root t person negative

/-- Modelled from the spec (section 4.2), as amended: like
`compoundClaimed`, but the second-layer person suffixes of the reported
(rivayet) compound tense are the type-1 set, matching the code. -/
def compoundAmended (tense : Tense) (root : String) (person : Person)
    (negative : Bool) : String :=
  match tense with
  | .pastContinuousReported =>
      let presentBase := conjugateForm root .present person negative
      match strLastIndexOf presentBase "yor" with
      | none => presentBase
      | some yorIndex =>
          let baseWithYor := strTake presentBase (yorIndex + 3)
          let reportedSuffix := harmonize baseWithYor "mIş"
          baseWithYor ++ reportedSuffix
            ++ harmonize (baseWithYor ++ reportedSuffix) (personSuffixType1 person)
  | t => compoundClaimed t root person negative

/-! ### Helper lemmas -/

/-- Appending strings appends their character lists. -/
theorem strData_append (a b : String) : (a ++ b).data = a.data ++ b.data := by
  cases a
  cases b
  rfl

/-- Harmonization is length-preserving: each template character resolves
to exactly one character. -/
theorem harmonize_length (stem template : String) :
    (harmonize stem template).data.length = template.data.length := by
  simp [harmonize]

/-- Stripping the person-suffix template after appending its harmonized
form recovers the base. -/
theorem stripPersonSuffix_append (base stem template : String) :
    stripPersonSuffix (base ++ harmonize stem template) template = base := by
  cases base with
  | mk l =>
      simp only [stripPersonSuffix, strDropRight, strLen, strData_append,
        List.length_append, harmonize_length, Nat.add_sub_cancel, List.take_left]

/-- Stripping the empty template is the identity. -/
theorem stripPersonSuffix_empty (s : String) : stripPersonSuffix s "" = s := by
  cases s with
  | mk l => simp [stripPersonSuffix, strDropRight, strLen]

/-- Every element kept by the deduplication filter comes from the input. -/
theorem mem_of_mem_dedupResults (r : DeinflectionResult) :
    ∀ (l : List DeinflectionResult) (seen : List String),
      r ∈ dedupResults seen l → r ∈ l := by
  intro l
  induction l with
  | nil => intro seen h; simp [dedupResults] at h
  | cons x xs ih =>
      intro seen h
      by_cases hx : seen.contains x.dictionaryForm
      · simp only [dedupResults, hx, if_pos] at h
        exact List.mem_cons_of_mem x (ih _ h)
      · simp only [dedupResults, hx, if_neg, Bool.not_eq_true] at h
        rcases List.mem_cons.mp h with h₁ | h₂
        · exact h₁ ▸ List.mem_cons_self x xs
        · exact List.mem_cons_of_mem x (ih _ h₂)

/-- Every pattern-produced analysis carries at least one suffix
identifier: the verb pass always records the tense, the noun and
possessive passes record their case suffix. -/
theorem rawResults_suffixes_ne_nil (word : String) (r : DeinflectionResult)
    (h : r ∈ rawResults word) : r.suffixes ≠ [] := by
  simp only [rawResults, List.mem_append] at h
  rcases h with (h | h) | h
  · simp only [verbResults, List.mem_filterMap] at h
    obtain ⟨rule, _, hr⟩ := h
    split at hr
    · exact absurd hr (by simp)
    · cases hr.symm
      simp only []
      rcases rule.negative with _ | _ <;> simp
  all_goals
    simp only [nounResults, List.mem_filterMap] at h
    obtain ⟨rule, _, hr⟩ := h
    split at hr
    · exact absurd hr (by simp)
    · split at hr
      · cases hr.symm
        simp
      · exact absurd hr (by simp)

/-- The switch of `harmonize` never outputs the placeholders `A` or `I`. -/
theorem harmonizeChar_no_placeholder (v c : Char) :
    (!(harmonizeChar v c == 'A') && !(harmonizeChar v c == 'I')) = true := by
  unfold harmonizeChar
  split_ifs with h1 h2
  · unfold getTwoWayHarmony; split_ifs <;> decide
  · simp only [getFourWayHarmony]; split_ifs <;> decide
  · simp [h1, h2]

/-- The switch of `applySuffix` never outputs `A`, `I` or `D`. -/
theorem resolveChar_no_placeholder (stem : String) (v c : Char) :
    (!(resolveChar stem v c == 'A') && !(resolveChar stem v c == 'I')
      && !(resolveChar stem v c == 'D')) = true := by
  unfold resolveChar
  split_ifs with h1 h2 h3
  · unfold getTwoWayHarmony; split_ifs <;> decide
  · simp only [getFourWayHarmony]; split_ifs <;> decide
  · unfold getConsonantD; split_ifs <;> decide
  · simp [h1, h2, h3]

/-! ### The claims -/

/-- Claim C1, counterexample: the round trip fails for the regular verb
gelmek at tense past, person ben, negative polarity — the conjugated form
is gelmedim, whose deinflection candidates are gelmemek and gelmed, not
gelmek (the deinflection table has no pattern for the negative marker of
the simple past). -/
theorem roundTrip_fails_negative_past :
    roundTrips "gelmek" .past .ben true = false := by decide

/-- Claim C1, amended: for every lemma of the curated regular-verb test
set, the round trip deinflect-of-conjugate recovers the lemma for every
person in the positive polarity of the tenses present, past, future,
aorist, reported, conditional and optative, and in the negative polarity
of the present tense. -/
theorem roundTrip_on_curated_set :
    (curatedVerbs.all fun v =>
      (positiveRoundTripTenses.all fun t =>
        allPersons.all fun p => roundTrips v t p false)
      && (allPersons.all fun p => roundTrips v .present p true)) = true := by decide

/-- Claim C2: the conjugation engine does not implement the negative
aorist -mAz rule: conjugate of etmek at aorist, sen, negative yields
etmesin (not etmezsin), the 1st singular yields etmeim (not the short
form etmem), while the sibling deinflection table of the same repository
expects the -mAz shapes: deinflecting etmezsin recovers etmek. -/
theorem negative_aorist_missing_z :
    getConjugation "etmek" .aorist .sen true = "etmesin" ∧
    getConjugation "etmek" .aorist .ben true = "etmeim" ∧
    ((deinflect "etmezsin").map (·.dictionaryForm)).contains "etmek" = true := by
  refine ⟨rfl, rfl, by decide⟩

/-- Claim C3: irregular-stem handling gives gider for the aorist 3rd
singular of gitmek (softened stem gid plus -Ar) and yiyorum for the
present 1st singular of yemek (contracted stem yi plus yor plus the
person suffix). -/
theorem irregular_stem_conjugations :
    getConjugation "gitmek" .aorist .o false = "gider" ∧
    getConjugation "yemek" .present .ben false = "yiyorum" :=
  ⟨rfl, rfl⟩

/-- Claim C4: the conjugation engine maps okumak to okuyorum, but
deinflecting okuyorum yields the dictionary forms okmak (tagged present,
1sg) and okuyor only — the elided root vowel is never restored, so the
claimed dictionary form okumak is absent. -/
theorem okuyorum_does_not_recover_okumak :
    getConjugation "okumak" .present .ben false = "okuyorum" ∧
    (deinflect "okuyorum").map (·.dictionaryForm) = ["okmak", "okuyor"] ∧
    ((deinflect "okuyorum").map (·.dictionaryForm)).contains "okumak" = false := by
  refine ⟨rfl, by decide, by decide⟩

/-- Claim C5, counterexample: applySuffix on the vowel-less stem b
appends the template verbatim, leaving the placeholder A unresolved, and
harmonize passes the placeholder D through unresolved for every stem. -/
theorem unresolved_placeholders_exist :
    'A' ∈ (applySuffix "b" "A").data ∧ 'D' ∈ (harmonize "gel" "DI").data := by
  decide

/-- Claim C5, amended: harmonize resolves every A and I placeholder for
every stem and template (a vowel-less stem defaults to front harmony),
but passes D through; applySuffix resolves every A, I and D placeholder
whenever the stem contains a vowel, while a vowel-less stem receives the
template appended verbatim rather than a front-harmony default. -/
theorem harmony_resolution_totality :
    ∀ stem template : String,
      ((harmonize stem template).data.all
        (fun c => !(c == 'A') && !(c == 'I'))) = true ∧
      (∀ v, getLastVowel stem = some v →
        applySuffix stem template = stem ++ resolveTemplate stem v template ∧
        ((resolveTemplate stem v template).data.all
          (fun c => !(c == 'A') && !(c == 'I') && !(c == 'D'))) = true) := by
  intro stem template
  constructor
  · simp only [harmonize, List.all_eq_true]
    intro c hc
    simp only [List.mem_map] at hc
    obtain ⟨c₀, _, rfl⟩ := hc
    exact harmonizeChar_no_placeholder _ c₀
  · intro v hv
    constructor
    · simp [applySuffix, hv]
    · simp only [resolveTemplate, List.all_eq_true]
      intro c hc
      simp only [List.mem_map] at hc
      obtain ⟨c₀, _, rfl⟩ := hc
      exact resolveChar_no_placeholder stem v c₀

/-- Claim C5, witness: at the stem gel with last vowel e and template DA,
the resolver runs and its output has no placeholder characters. -/
theorem harmony_resolution_totality_witness :
    applySuffix "gel" "DA" = "gel" ++ resolveTemplate "gel" 'e' "DA" ∧
    ((resolveTemplate "gel" 'e' "DA").data.all
      (fun c => !(c == 'A') && !(c == 'I') && !(c == 'D'))) = true :=
  (harmony_resolution_totality "gel" "DA").2 'e' (by decide)

/-- Claim C6: deinflect never returns an empty list, and for the word
gelmek, already in dictionary form, the output includes the identity
analysis — dictionary form gelmek with an empty suffix list. -/
theorem deinflect_never_empty_and_identity :
    (∀ w : String, 1 ≤ (deinflect w).length) ∧
    ((deinflect "gelmek").any
      (fun r => r.dictionaryForm == "gelmek" && r.suffixes.isEmpty)) = true := by
  constructor
  · intro w
    simp only [deinflect]
    cases hr : rawResults w with
    | nil => simp [dedupResults]
    | cons r rs => simp [dedupResults]
  · decide

/-- Claim C7: the imperative has no 1st-singular form — for every lemma
and both polarities the engine returns the empty string for person ben. -/
theorem imperative_first_singular_empty :
    ∀ (inf : String) (neg : Bool), getConjugation inf .imperative .ben neg = "" := by
  intro inf neg
  rfl

/-- Claim C8: conjugateVerb is total — it returns a table of 9 simple
tenses (14 with compounds) for every input string, and for a string not
ending in -mek or -mak the extracted root is the input unchanged. -/
theorem conjugateVerb_total :
    ∀ s : String,
      (conjugateVerb s false).tenses.length = 9 ∧
      (conjugateVerb s true).tenses.length = 14 ∧
      (endsWithInfinitive s = false → (conjugateVerb s false).root = s) := by
  intro s
  refine ⟨rfl, rfl, ?_⟩
  intro h
  simp only [endsWithInfinitive] at h
  simp [conjugateVerb, getVerbRoot, h]

/-- Claim C8, witness: the empty string is malformed and its table keeps
it as the root. -/
theorem conjugateVerb_total_witness :
    endsWithInfinitive "" = false ∧ (conjugateVerb "" false).root = "" :=
  ⟨by decide, (conjugateVerb_total "").2.2 (by decide)⟩

/-- Claim C9, counterexample: compound conjugation is not composition
with type-2 person suffixes throughout — the reported compound of the
present (rivayet) uses type-1 suffixes (geliyormuşum, not geliyormuşm),
and the negative aorist past is derived from root plus mA plus z rather
than from the conjugated negative aorist (gelmezdim, not gelmedim). -/
theorem compound_not_type2_composition :
    ¬ (conjugateForm "gel" .pastContinuousReported .ben false =
        compoundClaimed .pastContinuousReported "gel" .ben false) ∧
    ¬ (conjugateForm "gel" .aoristPast .ben true =
        compoundClaimed .aoristPast "gel" .ben true) := by
  decide

/-- Claim C9, amended: every compound-tense form equals the composition
over the corresponding simple-tense surface form — strip the first-layer
person suffix (equivalently, locate the tense marker), append the second
harmony-resolved past or reported layer and the second-layer person
suffixes (type-2 for the hikaye layers, type-1 for the rivayet layer) —
for both polarities of the continuous, reported-continuous, future and
reported compounds, for the positive aorist past, and for the negative
aorist past in the 3rd singular only. -/
theorem compound_is_composition :
    ∀ (root : String) (person : Person) (negative : Bool),
      conjugateForm root .pastContinuous person negative =
        compoundAmended .pastContinuous root person negative ∧
      conjugateForm root .pastContinuousReported person negative =
        compoundAmended .pastContinuousReported root person negative ∧
      conjugateForm root .futurePast person negative =
        compoundAmended .futurePast root person negative ∧
      conjugateForm root .pastReported person negative =
        compoundAmended .pastReported root person negative ∧
      conjugateForm root .aoristPast person false =
        compoundAmended .aoristPast root person false ∧
      conjugateForm root .aoristPast .o negative =
        compoundAmended .aoristPast root .o negative := by
  intro root person negative
  refine ⟨rfl, rfl, ?_, ?_, ?_, ?_⟩
  · simp only [conjugateForm, compoundAmended, compoundClaimed]
    rw [stripPersonSuffix_append]
  · simp only [conjugateForm, compoundAmended, compoundClaimed]
    rw [stripPersonSuffix_append]
  · simp only [conjugateForm, compoundAmended, compoundClaimed, Bool.false_eq_true,
      if_false]
    rw [stripPersonSuffix_append]
  · cases negative with
    | false =>
        simp only [conjugateForm, compoundAmended, compoundClaimed, Bool.false_eq_true,
          if_false]
        rw [stripPersonSuffix_append]
    | true =>
        simp only [conjugateForm, compoundAmended, compoundClaimed, if_true,
          personSuffixType1]
        rw [stripPersonSuffix_empty]

/-- Claim C10, counterexample: for the word bu an accusative noun pattern
matches (and a possessive one), yet every match is discarded by the
short-root heuristic, so the output still consists of the identity
analysis with an empty suffix list — the claimed equivalence with no
pattern matching fails. -/
theorem identity_despite_pattern_match :
    anyPatternMatches "bu" = true ∧
    ((deinflect "bu").any (fun r => r.suffixes.isEmpty)) = true := by
  decide

/-- Claim C10, amended: the output of deinflect contains a result with an
empty suffix list exactly when no pattern produced a result (verb-pattern
matches always produce one; noun and possessive matches whose stripped
root is shorter than 2 characters are discarded), and in that case the
identity result is the sole element. -/
theorem identity_iff_no_produced_result :
    ∀ w : String,
      (((deinflect w).any (fun r => r.suffixes.isEmpty)) = true ↔ rawResults w = []) ∧
      (rawResults w = [] → deinflect w = [identityResult w]) := by
  intro w
  cases hr : rawResults w with
  | nil =>
      have hd : deinflect w = [identityResult w] := by
        simp [deinflect, hr, dedupResults]
      constructor
      · simp [hd, identityResult]
      · intro _; exact hd
  | cons r rs =>
      have hd : deinflect w = dedupResults [] (r :: rs) := by
        simp [deinflect, hr]
      constructor
      · rw [hd]
        constructor
        · intro h
          rw [List.any_eq_true] at h
          obtain ⟨x, hx, hxe⟩ := h
          have hxr : x ∈ rawResults w := by
            rw [hr]
            exact mem_of_mem_dedupResults x _ _ hx
          have hne := rawResults_suffixes_ne_nil w x hxr
          exact absurd (List.isEmpty_iff.mp hxe) hne
        · intro h
          exact absurd h (by simp)
      · intro h
        exact absurd h (by simp)

/-- Claim C10, witness: at the word bu no pattern produces a result and
the output is exactly the identity analysis. -/
theorem identity_iff_no_produced_result_witness :
    rawResults "bu" = [] ∧ deinflect "bu" = [identityResult "bu"] :=
  ⟨by decide, (identity_iff_no_produced_result "bu").2 (by decide)⟩

end Ozcuk

